import Mathlib

/-!
Verification of the Browser State Extraction & Action Execution Engine.

This file shallowly embeds the engine's core logic:
  * the interactive-element indexing pipeline of
    `DOMService.getPageState` (filter, priority sort, cap, 1-based
    indexing, marker attributes, overlay creation),
  * the durable-selector construction `createStableSelector`,
  * the text rendering `getFormattedElements`,
  * the cleanup pass `DOMService.cleanup` and the `data-stable-id`
    stamping of `clickElement`,
  * the tab-tracking event handlers of `PlaywrightService`,
  * `PlaywrightService.goto` (strict wait then one fallback) and
    `typeBySelector`,
  * the `ActionExecutor.execute` try/catch result contract.

DOM-provided data (computed styles, bounding rectangles, attribute
lists) is represented by explicit record fields; browser side effects
are represented by explicit state passing and event traces, and
fallible operations by `Except` values supplied by an environment
record.  Pixel coordinates are modelled as integers: only their order
matters to the embedded logic.
-/

namespace WebAgent

/-- A DOMRect as returned by `getBoundingClientRect`. -/
structure Rect where
  x : Int
  y : Int
  width : Int
  height : Int
  top : Int
  left : Int
  bottom : Int
  right : Int
  deriving DecidableEq, Repr

/-- The viewport dimensions `window.innerWidth` / `window.innerHeight`. -/
structure Viewport where
  width : Int
  height : Int
  deriving DecidableEq, Repr

/-- An element's attribute list in document insertion order, as iterated
by `element.attributes` in `getElementAttributes`. -/
abbrev Attrs := List (String × String)

/-- `attributes[k]` — first binding wins, `none` when the key is absent. -/
def attrLookup (a : Attrs) (k : String) : Option String :=
  (a.find? (fun kv => kv.1 = k)).map (fun kv => kv.2)

/-- JavaScript truthiness of a string-valued attribute access:
present and non-empty. -/
def truthy (o : Option String) : Bool :=
  match o with
  | none => false
  | some s => s ≠ ""

/-- `element.removeAttribute k`. -/
def removeAttr (a : Attrs) (k : String) : Attrs :=
  a.filter (fun kv => kv.1 ≠ k)

/-- `element.setAttribute k v`: replaces the value in place when the key
exists, otherwise appends the new attribute at the end. -/
def setAttr (a : Attrs) (k v : String) : Attrs :=
  if (a.find? (fun kv => kv.1 = k)).isSome then
    a.map (fun kv => if kv.1 = k then (k, v) else kv)
  else
    a ++ [(k, v)]

/-- One candidate element as the `page.evaluate` snapshot script sees it:
identity, tag, attributes, the computed-style fields the script reads,
its bounding rectangle, its effective `z-index` style (`none` encodes a
non-numeric value such as `auto`, mirroring `parseInt(...) || 0`), the
`type` property (empty for non-inputs, mirroring `... || ''`) and its
text content.  `eid` stands for DOM node identity. -/
structure RawElem where
  eid : Nat
  tagName : String
  attrs : Attrs
  display : String
  visibility : String
  opacity : String
  rect : Rect
  zIndexStyle : Option Int
  inputType : String
  textContent : String
  deriving DecidableEq, Repr

/-- `parseInt(style.zIndex) || 0`. -/
def effZ (e : RawElem) : Int :=
  e.zIndexStyle.getD 0

/-- `isElementVisible` from the snapshot script. -/
def isElementVisible (e : RawElem) : Bool :=
  e.display ≠ "none" && e.visibility ≠ "hidden" && e.opacity ≠ "0" &&
    decide (0 < e.rect.width) && decide (0 < e.rect.height)

/-- `isInViewport` from the snapshot script. -/
def isInViewport (vp : Viewport) (r : Rect) : Bool :=
  decide (0 ≤ r.top) && decide (0 ≤ r.left) &&
    decide (r.bottom ≤ vp.height) && decide (r.right ≤ vp.width)

/-- `s.toLowerCase()`, written on the character list so that concrete
witnesses evaluate by kernel reduction. -/
def lowerCase (s : String) : String :=
  ⟨s.data.map Char.toLower⟩

/-- `s.trim()`, written on the character list. -/
def trimJS (s : String) : String :=
  ⟨(((s.data.dropWhile Char.isWhitespace).reverse).dropWhile Char.isWhitespace).reverse⟩

/-- `s.startsWith(c)` for a one-character needle. -/
def headIs (s : String) (c : Char) : Bool :=
  s.data.head? = some c

/-- `element.tagName.toLowerCase()`. -/
def tagLower (e : RawElem) : String :=
  lowerCase e.tagName

/-- `element.getAttribute('role') || ''`. -/
def roleOf (e : RawElem) : String :=
  (attrLookup e.attrs "role").getD ""

/-- `element.hasAttribute k`. -/
def hasAttr (e : RawElem) (k : String) : Bool :=
  (attrLookup e.attrs k).isSome

/-- `isInteractiveElement` from the snapshot script. -/
def isInteractiveElement (e : RawElem) : Bool :=
  let tag := tagLower e
  if ["a", "button", "input", "select", "textarea"].contains tag then true
  else if ["button", "link", "menuitem", "option"].contains (roleOf e) then true
  else if hasAttr e "onclick" || hasAttr e "jsaction" then true
  else if tag = "input" &&
      ["text", "search", "number", "email", "tel", "url"].contains e.inputType then true
  else false

/-- The filter of the snapshot pipeline: visible and interactive. -/
def keepElem (e : RawElem) : Bool :=
  isElementVisible e && isInteractiveElement e

/-- The sort comparator of the snapshot pipeline: in-viewport first,
then higher z-index, then top-to-bottom. -/
def cmpPriority (vp : Viewport) (a b : RawElem) : Int :=
  let aZ := effZ a
  let bZ := effZ b
  let aInV := isInViewport vp a.rect
  let bInV := isInViewport vp b.rect
  if aInV ≠ bInV then (if aInV then -1 else 1)
  else if aZ ≠ bZ then bZ - aZ
  else a.rect.top - b.rect.top

/-- The ordering induced by the comparator: `a` sorts no later than `b`. -/
def prioLE (vp : Viewport) (a b : RawElem) : Prop :=
  cmpPriority vp a b ≤ 0

instance (vp : Viewport) : DecidableRel (prioLE vp) :=
  fun a b => inferInstanceAs (Decidable (cmpPriority vp a b ≤ 0))

/-- Rank of the in-viewport flag for the lexicographic reading. -/
def vpRank (vp : Viewport) (a : RawElem) : Nat :=
  if isInViewport vp a.rect then 0 else 1

theorem prioLE_iff (vp : Viewport) (a b : RawElem) :
    prioLE vp a b ↔
      vpRank vp a < vpRank vp b ∨
        (vpRank vp a = vpRank vp b ∧
          (effZ b < effZ a ∨ (effZ a = effZ b ∧ a.rect.top ≤ b.rect.top))) := by
  unfold prioLE cmpPriority vpRank
  rcases h1 : isInViewport vp a.rect <;> rcases h2 : isInViewport vp b.rect <;>
    simp [h1, h2] <;> by_cases hz : effZ a = effZ b <;> simp [hz] <;> omega

instance (vp : Viewport) : IsTotal RawElem (prioLE vp) := by
  constructor
  intro a b
  rw [prioLE_iff, prioLE_iff]
  omega

instance (vp : Viewport) : IsTrans RawElem (prioLE vp) := by
  constructor
  intro a b c hab hbc
  rw [prioLE_iff] at hab hbc ⊢
  omega

/-- `.slice(0, 50)` — the configured cap on snapshot size. -/
def maxElements : Nat := 50

/-- The `data-element-index` transient marker attribute. -/
def markerKey : String := "data-element-index"

/-- Strip the transient index marker from an element, as the
`removeAttribute('data-element-index')` pass at the start of a capture
and in `cleanup` does. -/
def cleanElem (e : RawElem) : RawElem :=
  { e with attrs := removeAttr e.attrs markerKey }

/-- Filter, priority-sort and cap the candidate list, as
`getPageState` does before numbering.  `List.insertionSort` models
`Array.prototype.sort` with the comparator: with a consistent
comparator the result is the stable sorted permutation. -/
def selectElems (vp : Viewport) (cands : List RawElem) : List RawElem :=
  ((cands.filter keepElem).insertionSort (prioLE vp)).take maxElements

/-- The bounding box stored on an ElementRecord. -/
structure BBox where
  x : Int
  y : Int
  width : Int
  height : Int
  deriving DecidableEq, Repr

/-- An ElementRecord as produced by one capture pass. -/
structure ElementInfo where
  index : Nat
  tag : String
  type : String
  text : String
  attributes : Attrs
  isVisible : Bool
  boundingBox : BBox
  inViewport : Bool
  zIndex : Int
  deriving DecidableEq, Repr

/-- Build the record for the element at 0-based position `i` of the
prioritized list: the snapshot script sets `data-element-index` to
`i + 1` on the live element and then reads the attribute list, so the
marker is part of the record. -/
def mkElementInfo (vp : Viewport) (i : Nat) (e : RawElem) : ElementInfo :=
  { index := i + 1
    tag := tagLower e
    type := e.inputType
    text := trimJS e.textContent
    attributes := setAttr e.attrs markerKey (toString (i + 1))
    isVisible := isElementVisible e
    boundingBox := ⟨e.rect.x, e.rect.y, e.rect.width, e.rect.height⟩
    inViewport := isInViewport vp e.rect
    zIndex := effZ e }

/-- `.map((element, index) => ...)` with an explicit running index. -/
def mapIdxFrom (f : Nat → RawElem → ElementInfo) : Nat → List RawElem → List ElementInfo
  | _, [] => []
  | k, e :: es => f k e :: mapIdxFrom f (k + 1) es

/-- The page as one capture pass observes and mutates it: the candidate
elements matched by the interactive-selector query, and the overlay
nodes (`.element-highlight`) currently attached to the document, stored
by their label.  Overlay nodes never match the interactive-selector
query, so they are not candidates. -/
structure PageState where
  elems : List RawElem
  overlays : List Nat
  deriving DecidableEq, Repr

/-- The ElementRecord list produced by one `getPageState` pass: the
capture first strips stale `data-element-index` markers from every
element, then filters, sorts, caps and numbers. -/
def captureRecords (vp : Viewport) (p : PageState) : List ElementInfo :=
  mapIdxFrom (mkElementInfo vp) 0 (selectElems vp (p.elems.map cleanElem))

/-- One full `getPageState` pass: returns the records and the mutated
page — existing overlays and markers removed, the selected elements
re-stamped with their 1-based index, and one fresh overlay appended per
visible record. -/
def captureStep (vp : Viewport) (p : PageState) : List ElementInfo × PageState :=
  let cleaned := p.elems.map cleanElem
  let sel := selectElems vp cleaned
  let infos := mapIdxFrom (mkElementInfo vp) 0 sel
  let selIds := sel.map (fun e => e.eid)
  let elems2 := cleaned.map (fun e =>
    if selIds.contains e.eid then
      { e with attrs := setAttr e.attrs markerKey (toString (selIds.indexOf e.eid + 1)) }
    else e)
  let overlays2 := (infos.filter (fun i => i.isVisible)).map (fun i => i.index)
  (infos, ⟨elems2, overlays2⟩)

theorem captureStep_fst (vp : Viewport) (p : PageState) :
    (captureStep vp p).1 = captureRecords vp p := rfl

/-- Indices of `mapIdxFrom` starting at `k` are `k+1, k+2, ...`. -/
theorem mapIdxFrom_map_index (vp : Viewport) :
    ∀ (l : List RawElem) (k : Nat),
      (mapIdxFrom (mkElementInfo vp) k l).map (fun i => i.index) =
        List.range' (k + 1) l.length := by
  intro l
  induction l with
  | nil => intro k; rfl
  | cons e es ih =>
    intro k
    simp only [mapIdxFrom, List.map_cons, List.length_cons, List.range'_succ, ih,
      mkElementInfo]

theorem mapIdxFrom_get_index (vp : Viewport) :
    ∀ (l : List RawElem) (k i : Nat)
      (h : i < (mapIdxFrom (mkElementInfo vp) k l).length),
      ((mapIdxFrom (mkElementInfo vp) k l).get ⟨i, h⟩).index = k + i + 1 := by
  intro l
  induction l with
  | nil => intro k i h; simp [mapIdxFrom] at h
  | cons e es ih =>
    intro k i h
    match i with
    | 0 => simp [mapIdxFrom, mkElementInfo]
    | j + 1 =>
      have h' : j < (mapIdxFrom (mkElementInfo vp) (k + 1) es).length := by
        simpa [mapIdxFrom] using h
      have := ih (k + 1) j h'
      simp only [mapIdxFrom, List.get_cons_succ]
      omega

theorem length_mapIdxFrom (vp : Viewport) :
    ∀ (l : List RawElem) (k : Nat),
      (mapIdxFrom (mkElementInfo vp) k l).length = l.length := by
  intro l
  induction l with
  | nil => intro k; rfl
  | cons e es ih => intro k; simp [mapIdxFrom, ih]

/-- **C1.** For every capture pass, the ElementRecord list is indexed
1, 2, ..., N in order: the record at 0-based position `i` has index
`i + 1`, so indices are 1-based, contiguous and duplicate-free within
the snapshot. -/
theorem capture_indices_contiguous (vp : Viewport) (p : PageState) :
    (captureRecords vp p).map (fun i => i.index) =
        List.range' 1 (captureRecords vp p).length ∧
      ∀ (i : Nat) (h : i < (captureRecords vp p).length),
        ((captureRecords vp p).get ⟨i, h⟩).index = i + 1 := by
  constructor
  · rw [captureRecords, mapIdxFrom_map_index, length_mapIdxFrom]
  · intro i h
    simpa using mapIdxFrom_get_index vp (selectElems vp (p.elems.map cleanElem)) 0 i h

theorem length_selectElems (vp : Viewport) (cands : List RawElem) :
    (selectElems vp cands).length = min maxElements (cands.filter keepElem).length := by
  rw [selectElems, List.length_take, List.length_insertionSort]

theorem pairwise_selectElems (vp : Viewport) (cands : List RawElem) :
    List.Pairwise (prioLE vp) (selectElems vp cands) :=
  List.Pairwise.sublist (List.take_sublist _ _)
    (List.sorted_insertionSort (prioLE vp) (cands.filter keepElem))

/-- **C5.** When the filtered interactive candidates exceed the cap,
the snapshot length equals the cap and the retained elements (from
which the records are built 1:1, in order) are sorted by the priority
order: in-viewport before out-of-viewport, then higher z-index, ties by
top coordinate. -/
theorem capture_cap_and_priority (vp : Viewport) (p : PageState)
    (h : maxElements < ((p.elems.map cleanElem).filter keepElem).length) :
    (captureRecords vp p).length = maxElements ∧
      List.Pairwise (prioLE vp) (selectElems vp (p.elems.map cleanElem)) := by
  refine ⟨?_, pairwise_selectElems vp _⟩
  rw [captureRecords, length_mapIdxFrom, length_selectElems]
  omega

/-- A candidate element used by concrete witnesses: a visible anchor at
vertical offset `i`. -/
def wRaw (i : Nat) : RawElem :=
  { eid := i
    tagName := "A"
    attrs := [("href", "/r" ++ toString i)]
    display := "block"
    visibility := "visible"
    opacity := "1"
    rect := ⟨0, Int.ofNat i, 10, 10, Int.ofNat i, 0, Int.ofNat i + 10, 10⟩
    zIndexStyle := none
    inputType := ""
    textContent := "link " ++ toString i }

def wViewport : Viewport := ⟨1280, 800⟩

/-- A page with 51 interactive candidates, one more than the cap. -/
def wPageBig : PageState := ⟨(List.range 51).map wRaw, []⟩

theorem capture_cap_and_priority_witness :
    maxElements < ((wPageBig.elems.map cleanElem).filter keepElem).length ∧
      ((captureRecords wViewport wPageBig).length = maxElements ∧
        List.Pairwise (prioLE wViewport)
          (selectElems wViewport (wPageBig.elems.map cleanElem))) :=
  ⟨by decide, capture_cap_and_priority wViewport wPageBig (by decide)⟩

theorem attrLookup_removeAttr_self (a : Attrs) (k : String) :
    attrLookup (removeAttr a k) k = none := by
  induction a with
  | nil => rfl
  | cons kv a ih =>
    by_cases h : kv.1 = k
    · simp only [removeAttr, List.filter, h]
      rw [show (decide ¬k = k) = false by simp]
      exact ih
    · simp only [removeAttr, List.filter]
      rw [show (decide ¬kv.1 = k) = true by simp [h]]
      simp only [attrLookup, List.find?]
      rw [show (decide (kv.1 = k)) = false by simp [h]]
      exact ih

theorem removeAttr_removeAttr (a : Attrs) (k : String) :
    removeAttr (removeAttr a k) k = removeAttr a k := by
  simp [removeAttr, List.filter_filter]

theorem removeAttr_append (a b : Attrs) (k : String) :
    removeAttr (a ++ b) k = removeAttr a k ++ removeAttr b k := by
  simp [removeAttr, List.filter_append]

theorem setAttr_of_not_found (a : Attrs) (k v : String)
    (h : (a.find? (fun kv => kv.1 = k)).isSome = false) :
    setAttr a k v = a ++ [(k, v)] := by
  simp [setAttr, h]

theorem find?_removeAttr_self (a : Attrs) (k : String) :
    ((removeAttr a k).find? (fun kv => kv.1 = k)).isSome = false := by
  have h := attrLookup_removeAttr_self a k
  rw [attrLookup] at h
  rcases hf : (removeAttr a k).find? (fun kv => kv.1 = k) with _ | kv
  · simp [hf]
  · rw [hf] at h
    simp at h

/-- Stripping the marker undoes re-stamping it on an already-clean
attribute list. -/
theorem removeAttr_setAttr_removeAttr (a : Attrs) (k v : String) :
    removeAttr (setAttr (removeAttr a k) k v) k = removeAttr a k := by
  rw [setAttr_of_not_found _ _ _ (find?_removeAttr_self a k), removeAttr_append,
    removeAttr_removeAttr]
  simp [removeAttr, List.filter]

theorem cleanElem_cleanElem (e : RawElem) :
    cleanElem (cleanElem e) = cleanElem e := by
  simp [cleanElem, removeAttr_removeAttr]

/-- The page state left by a capture pass re-cleans to the same element
list the capture itself worked on. -/
theorem captureStep_clean (vp : Viewport) (p : PageState) :
    ((captureStep vp p).2).elems.map cleanElem = p.elems.map cleanElem := by
  rw [captureStep]
  simp only [List.map_map]
  apply List.map_congr_left
  intro e _
  by_cases h : (List.map (fun e => e.eid)
      (selectElems vp (List.map cleanElem p.elems))).contains (cleanElem e).eid
  · simp only [Function.comp_apply, h, if_pos]
    show cleanElem { cleanElem e with attrs := setAttr (cleanElem e).attrs markerKey _ } =
      cleanElem e
    simp only [cleanElem]
    congr 1
    exact removeAttr_setAttr_removeAttr e.attrs markerKey _
  · simp only [Function.comp_apply, h, if_neg, Bool.false_eq_true, not_false_iff]
    exact cleanElem_cleanElem e

theorem mem_selectElems_visible (vp : Viewport) (cands : List RawElem)
    (e : RawElem) (h : e ∈ selectElems vp cands) : isElementVisible e = true := by
  rw [selectElems] at h
  have h2 : e ∈ (cands.filter keepElem).insertionSort (prioLE vp) :=
    List.take_subset _ _ h
  rw [List.mem_insertionSort, List.mem_filter] at h2
  have := h2.2
  rw [keepElem, Bool.and_eq_true] at this
  exact this.1

theorem mapIdxFrom_all_visible (vp : Viewport) :
    ∀ (l : List RawElem) (k : Nat), (∀ e ∈ l, isElementVisible e = true) →
      (mapIdxFrom (mkElementInfo vp) k l).filter (fun i => i.isVisible) =
        mapIdxFrom (mkElementInfo vp) k l := by
  intro l
  induction l with
  | nil => intro k _; rfl
  | cons e es ih =>
    intro k hall
    have he : isElementVisible e = true := hall e (List.mem_cons_self e es)
    simp only [mapIdxFrom, List.filter]
    rw [show (mkElementInfo vp k e).isVisible = true from he]
    rw [ih (k + 1) (fun x hx => hall x (List.mem_cons_of_mem e hx))]

/-- **C7.** Capture is idempotent on records and replaces overlays: a
second capture with no intervening DOM mutation yields the same
ElementRecord list, and after any capture the overlay count on the page
equals the element count of that capture (one overlay per record), not
a cumulative total. -/
theorem capture_idempotent_and_overlays (vp : Viewport) (p : PageState) :
    (captureStep vp (captureStep vp p).2).1 = (captureStep vp p).1 ∧
      ((captureStep vp p).2).overlays.length = ((captureStep vp p).1).length := by
  constructor
  · rw [captureStep_fst, captureStep_fst, captureRecords, captureRecords,
      captureStep_clean]
  · show ((((captureStep vp p).1).filter (fun i => i.isVisible)).map
        (fun i => i.index)).length = ((captureStep vp p).1).length
    rw [captureStep_fst, captureRecords, List.length_map]
    rw [mapIdxFrom_all_visible vp _ 0
      (fun e he => mem_selectElems_visible vp _ e he)]

/-- `Array.prototype.join(sep)`. -/
def joinSep (sep : String) : List String → String
  | [] => ""
  | [x] => x
  | x :: y :: xs => x ++ sep ++ joinSep sep (y :: xs)

/-- One `key="value"` token of the formatted rendering. -/
def fmtAttr (kv : String × String) : String :=
  kv.1 ++ "=\"" ++ kv.2 ++ "\""

/-- The `attrs` string of `getFormattedElements`. -/
def formatAttrs (a : Attrs) : String :=
  joinSep " " (a.map fmtAttr)

/-- One line of `getFormattedElements`:
`[index] <tag attr="val" ...>text</tag>`. -/
def formatElement (e : ElementInfo) : String :=
  "[" ++ toString e.index ++ "] <" ++ e.tag ++ " " ++ formatAttrs e.attributes ++
    ">" ++ e.text ++ "</" ++ e.tag ++ ">"

/-- The full text block handed to the oracle. -/
def getFormattedElements (infos : List ElementInfo) : String :=
  joinSep "\n" (infos.map formatElement)

/-- `t` occurs as a contiguous substring of `s`. -/
def strContains (s t : String) : Prop :=
  ∃ l r : List Char, s.data = l ++ t.data ++ r

theorem strContains_extend (x a y t : String) (h : strContains a t) :
    strContains (x ++ a ++ y) t := by
  obtain ⟨l, r, hd⟩ := h
  exact ⟨x.data ++ l, r ++ y.data, by simp [hd]⟩

theorem strContains_joinSep (sep : String) (l : List String) (x : String)
    (hx : x ∈ l) : strContains (joinSep sep l) x := by
  induction l with
  | nil => cases hx
  | cons a as ih =>
    rcases List.mem_cons.mp hx with h | h
    · subst h
      cases as with
      | nil => exact ⟨[], [], by simp [joinSep]⟩
      | cons b bs =>
        exact ⟨[], (sep ++ joinSep sep (b :: bs)).data, by simp [joinSep]⟩
    · have hin := ih h
      cases as with
      | nil => cases h
      | cons b bs =>
        obtain ⟨u, v, hd⟩ := hin
        exact ⟨(a ++ sep).data ++ u, v, by simp [joinSep, hd]⟩

theorem attrLookup_setAttr (a : Attrs) (k v : String) :
    attrLookup (setAttr a k v) k = some v := by
  rw [setAttr]
  by_cases hf : (a.find? (fun kv => kv.1 = k)).isSome
  · rw [if_pos hf]
    induction a with
    | nil => simp at hf
    | cons kv a ih =>
      by_cases h : kv.1 = k
      · simp [attrLookup, List.find?, h]
      · rw [List.find?_cons_of_neg _ (by simpa using h)] at hf
        simp only [List.map_cons, if_neg h]
        rw [attrLookup, List.find?_cons_of_neg _ (by simpa using h)]
        exact ih hf
  · rw [if_neg hf]
    rw [attrLookup, List.find?_append]
    have hnone : a.find? (fun kv => kv.1 = k) = none := by
      rcases hq : a.find? (fun kv => kv.1 = k) with _ | kv
      · exact hq
      · rw [hq] at hf; simp at hf
    rw [hnone]
    simp [List.find?]

theorem attr_mem_of_lookup (a : Attrs) (k v : String)
    (h : attrLookup a k = some v) : (k, v) ∈ a := by
  rw [attrLookup] at h
  rcases hq : a.find? (fun kv => kv.1 = k) with _ | kv
  · rw [hq] at h; simp at h
  · rw [hq] at h
    simp only [Option.map_some', Option.some_inj] at h
    have hk : kv.1 = k := by simpa using List.find?_some hq
    have hm : kv ∈ a := List.mem_of_find?_eq_some hq
    have : kv = (k, v) := by
      cases kv
      simp only at hk h
      simp [hk, h]
    rwa [this] at hm

theorem mem_mapIdxFrom (vp : Viewport) :
    ∀ (l : List RawElem) (k : Nat) (info : ElementInfo),
      info ∈ mapIdxFrom (mkElementInfo vp) k l →
        ∃ j e, e ∈ l ∧ info = mkElementInfo vp (k + j) e := by
  intro l
  induction l with
  | nil => intro k info h; cases h
  | cons e es ih =>
    intro k info h
    rcases List.mem_cons.mp h with h | h
    · exact ⟨0, e, List.mem_cons_self e es, by simpa using h⟩
    · obtain ⟨j, e2, hm, he⟩ := ih (k + 1) info h
      exact ⟨j + 1, e2, List.mem_cons_of_mem e hm, by rw [he]; congr 1; omega⟩

/-- **C10.** Every ElementRecord of a capture carries the transient
`data-element-index` marker in its attributes, valued at the record's
own index (the marker is set on the live element before the attributes
are read), and the marker therefore appears verbatim in the formatted
text rendering handed to the oracle. -/
theorem capture_marker_in_record (vp : Viewport) (p : PageState)
    (info : ElementInfo) (h : info ∈ captureRecords vp p) :
    attrLookup info.attributes markerKey = some (toString info.index) ∧
      strContains (getFormattedElements (captureRecords vp p))
        (markerKey ++ "=\"" ++ toString info.index ++ "\"") := by
  obtain ⟨j, e, _, he⟩ := mem_mapIdxFrom vp _ 0 info h
  have hlook : attrLookup info.attributes markerKey = some (toString info.index) := by
    rw [he]
    show attrLookup (setAttr e.attrs markerKey (toString (0 + j + 1))) markerKey =
      some (toString (mkElementInfo vp (0 + j) e).index)
    rw [attrLookup_setAttr]
    rfl
  refine ⟨hlook, ?_⟩
  have hpair : (markerKey, toString info.index) ∈ info.attributes :=
    attr_mem_of_lookup _ _ _ hlook
  have htok : strContains (formatAttrs info.attributes)
      (markerKey ++ "=\"" ++ toString info.index ++ "\"") := by
    have : fmtAttr (markerKey, toString info.index) ∈ info.attributes.map fmtAttr :=
      List.mem_map_of_mem fmtAttr hpair
    exact strContains_joinSep " " _ _ this
  have hline : strContains (formatElement info)
      (markerKey ++ "=\"" ++ toString info.index ++ "\"") := by
    rw [formatElement]
    obtain ⟨u, v, hd⟩ := htok
    refine ⟨("[" ++ toString info.index ++ "] <" ++ info.tag ++ " ").data ++ u,
      v ++ (">" ++ info.text ++ "</" ++ info.tag ++ ">").data, ?_⟩
    simp [String.data_append, hd]
  have hmem : formatElement info ∈ (captureRecords vp p).map formatElement :=
    List.mem_map_of_mem formatElement h
  have := strContains_joinSep "\n" _ _ hmem
  obtain ⟨u, v, hd⟩ := this
  obtain ⟨u2, v2, hd2⟩ := hline
  exact ⟨u ++ u2, v2 ++ v, by rw [getFormattedElements, hd, hd2]; simp⟩

/-- A one-element page used by concrete witnesses. -/
def wPageOne : PageState := ⟨[wRaw 0], []⟩

def wInfoOne : ElementInfo :=
  (captureRecords wViewport wPageOne).get ⟨0, by decide⟩

theorem capture_marker_in_record_witness :
    wInfoOne ∈ captureRecords wViewport wPageOne ∧
      (attrLookup wInfoOne.attributes markerKey = some (toString wInfoOne.index) ∧
        strContains (getFormattedElements (captureRecords wViewport wPageOne))
          (markerKey ++ "=\"" ++ toString wInfoOne.index ++ "\"")) :=
  ⟨List.get_mem _ 0 (by decide), capture_marker_in_record wViewport wPageOne wInfoOne
    (List.get_mem _ 0 (by decide))⟩

/-- The attribute priority list of `createStableSelector`. -/
def priorityAttrs : List String := ["id", "href", "name", "class", "role"]

/-- `createStableSelector` from the DOMService: ID selector first, then
an href-equality anchor selector for non-fragment links, then a
compound attribute selector plus a text-containment fallback.
`esc` abstracts the browser builtin `CSS.escape`. -/
def createStableSelector (esc : String → String) (attributes : Attrs) : String :=
  if truthy (attrLookup attributes "id") then
    "#" ++ esc ((attrLookup attributes "id").getD "")
  else if truthy (attrLookup attributes "href") &&
      !(headIs ((attrLookup attributes "href").getD "") '#') then
    "a[href=\"" ++ (attrLookup attributes "href").getD "" ++ "\"]"
  else
    let parts := priorityAttrs.filterMap (fun attr =>
      if truthy (attrLookup attributes attr) && attr ≠ markerKey then
        some ("[" ++ attr ++ "=\"" ++ (attrLookup attributes attr).getD "" ++ "\"]")
      else none)
    let parts2 :=
      if truthy (attrLookup attributes "text-content") then
        parts ++ [":contains(\"" ++ (attrLookup attributes "text-content").getD "" ++ "\")"]
      else parts
    joinSep "" parts2

/-- The shape of the href-based anchor selector. -/
def isHrefSelector (s : String) : Prop :=
  ∃ h : String, s = "a[href=\"" ++ h ++ "\"]"

/-- **C2 counterexample.** An ElementRecord whose attributes contain
both an `id` and an `href` — but with the `id` empty — is resolved to
the href-based selector, not the ID selector: `createStableSelector`
tests JavaScript truthiness, not key presence. -/
theorem selector_priority_cex :
    (attrLookup [("id", ""), ("href", "/next")] "id").isSome = true ∧
      (attrLookup [("id", ""), ("href", "/next")] "href").isSome = true ∧
      createStableSelector (fun s => s) [("id", ""), ("href", "/next")] =
        "a[href=\"/next\"]" ∧
      createStableSelector (fun s => s) [("id", ""), ("href", "/next")] ≠
        "#" ++ (fun s => s) ((attrLookup [("id", ""), ("href", "/next")] "id").getD "") := by
  refine ⟨by decide, by decide, by decide, by decide⟩

theorem head_of_hash_append (s : String) : ("#" ++ s).data.head? = some '#' := rfl

theorem head_of_href_selector (h : String) :
    ("a[href=\"" ++ h ++ "\"]").data.head? = some 'a' := rfl

theorem isHrefSelector_head (s : String) (h : isHrefSelector s) :
    s.data.head? = some 'a' := by
  obtain ⟨u, hu⟩ := h
  rw [hu]
  exact head_of_href_selector u

theorem joinSep_head (l : List String)
    (hl : ∀ s ∈ l, s.data.head? = some '[' ∨ s.data.head? = some ':') :
    (joinSep "" l).data.head? = none ∨ (joinSep "" l).data.head? = some '[' ∨
      (joinSep "" l).data.head? = some ':' := by
  cases l with
  | nil => left; rfl
  | cons x xs =>
    have hx := hl x (List.mem_cons_self x xs)
    have hdata : ∃ c cs, x.data = c :: cs ∧ (c = '[' ∨ c = ':') := by
      rcases hq : x.data with _ | ⟨c, cs⟩
      · rw [hq] at hx; simp at hx
      · rw [hq] at hx
        simp only [List.head?_cons, Option.some_inj] at hx
        exact ⟨c, cs, rfl, hx⟩
    obtain ⟨c, cs, hxeq, hc⟩ := hdata
    right
    cases xs with
    | nil =>
      show (x.data).head? = some '[' ∨ (x.data).head? = some ':'
      rw [hxeq]
      rcases hc with h | h <;> simp [h]
    | cons y ys =>
      show ((x ++ "" ++ joinSep "" (y :: ys)).data).head? = some '[' ∨
        ((x ++ "" ++ joinSep "" (y :: ys)).data).head? = some ':'
      rw [String.data_append, String.data_append, hxeq]
      rcases hc with h | h <;> simp [h]

/-- **C2 amended.** Selector priority on the live code: a *non-empty*
`id` always wins and never yields the href-based selector; the
href-based anchor selector is produced exactly when the `id` is absent
or empty and the `href` is present, non-empty and not fragment-only;
in every other case the result is the compound selector, which is never
of href-selector shape. -/
theorem createStableSelector_priority (esc : String → String) (a : Attrs) :
    (truthy (attrLookup a "id") = true →
        createStableSelector esc a = "#" ++ esc ((attrLookup a "id").getD "") ∧
          ¬ isHrefSelector (createStableSelector esc a)) ∧
      (truthy (attrLookup a "id") = false →
        truthy (attrLookup a "href") = true →
        headIs ((attrLookup a "href").getD "") '#' = false →
        createStableSelector esc a =
          "a[href=\"" ++ (attrLookup a "href").getD "" ++ "\"]") ∧
      (truthy (attrLookup a "id") = false →
        (truthy (attrLookup a "href") = false ∨
          headIs ((attrLookup a "href").getD "") '#' = true) →
        ¬ isHrefSelector (createStableSelector esc a)) := by
  refine ⟨?_, ?_, ?_⟩
  · intro hid
    have heq : createStableSelector esc a = "#" ++ esc ((attrLookup a "id").getD "") := by
      rw [createStableSelector, if_pos hid]
    refine ⟨heq, ?_⟩
    intro hhref
    have h1 := isHrefSelector_head _ hhref
    rw [heq, head_of_hash_append] at h1
    simp at h1
  · intro hid hhref hfrag
    rw [createStableSelector, if_neg (by simp [hid]), if_pos (by simp [hhref, hfrag])]
  · intro hid hcond
    have hbr : createStableSelector esc a = joinSep "" (
        let parts := priorityAttrs.filterMap (fun attr =>
          if truthy (attrLookup a attr) && attr ≠ markerKey then
            some ("[" ++ attr ++ "=\"" ++ (attrLookup a attr).getD "" ++ "\"]")
          else none)
        if truthy (attrLookup a "text-content") then
          parts ++ [":contains(\"" ++ (attrLookup a "text-content").getD "" ++ "\")"]
        else parts) := by
      rw [createStableSelector, if_neg (by simp [hid]), if_neg]
      rcases hcond with h | h <;> simp [h]
    intro hhref
    have hhead := isHrefSelector_head _ hhref
    rw [hbr] at hhead
    have hparts : ∀ s ∈ (
        let parts := priorityAttrs.filterMap (fun attr =>
          if truthy (attrLookup a attr) && attr ≠ markerKey then
            some ("[" ++ attr ++ "=\"" ++ (attrLookup a attr).getD "" ++ "\"]")
          else none)
        if truthy (attrLookup a "text-content") then
          parts ++ [":contains(\"" ++ (attrLookup a "text-content").getD "" ++ "\")"]
        else parts),
        s.data.head? = some '[' ∨ s.data.head? = some ':' := by
      intro s hs
      simp only at hs
      have hmain : ∀ t ∈ priorityAttrs.filterMap (fun attr =>
          if truthy (attrLookup a attr) && attr ≠ markerKey then
            some ("[" ++ attr ++ "=\"" ++ (attrLookup a attr).getD "" ++ "\"]")
          else none), t.data.head? = some '[' := by
        intro t ht
        obtain ⟨attr, _, hsome⟩ := List.mem_filterMap.mp ht
        rcases hcase : truthy (attrLookup a attr) && attr ≠ markerKey with _ | _
        · rw [hcase] at hsome; simp at hsome
        · rw [hcase] at hsome
          simp only [if_true, Option.some_inj] at hsome
          rw [← hsome]
          rfl
      by_cases htc : truthy (attrLookup a "text-content") = true
      · rw [if_pos htc] at hs
        rcases List.mem_append.mp hs with h | h
        · exact Or.inl (hmain s h)
        · right
          rw [List.mem_singleton.mp h]
          rfl
      · rw [if_neg htc] at hs
        exact Or.inl (hmain s hs)
    rcases joinSep_head _ hparts with h | h | h <;> rw [hhead] at h <;> simp at h

theorem createStableSelector_priority_witness :
    truthy (attrLookup [("id", "go"), ("href", "/next")] "id") = true ∧
      (createStableSelector (fun s => s) [("id", "go"), ("href", "/next")] =
          "#" ++ (fun s => s) ((attrLookup [("id", "go"), ("href", "/next")] "id").getD "") ∧
        ¬ isHrefSelector
          (createStableSelector (fun s => s) [("id", "go"), ("href", "/next")])) :=
  ⟨by decide,
    (createStableSelector_priority (fun s => s) [("id", "go"), ("href", "/next")]).1
      (by decide)⟩

/-- Tab lifecycle events observed by the browser context. -/
inductive TabEvent
  | openTab
  | closeTab (id : Nat)
  deriving DecidableEq, Repr

/-- The tab-tracking state of the PlaywrightService: the pages array in
open order, the current (active) page, and a counter supplying fresh
tab identities in order of opening. -/
structure Session where
  pages : List Nat
  page : Option Nat
  nextId : Nat
  deriving DecidableEq, Repr

def sessionInit : Session := ⟨[], none, 0⟩

/-- The `context.on('page')` handler: push the new page and switch to it. -/
def onPageOpen (s : Session) : Session :=
  { pages := s.pages ++ [s.nextId]
    page := some s.nextId
    nextId := s.nextId + 1 }

/-- The `page.on('close')` handler: drop the page from tracking; when
the closed page was current, switch to the last remaining page or to
none. -/
def onPageClose (s : Session) (id : Nat) : Session :=
  let pages2 := s.pages.filter (fun p => p ≠ id)
  { pages := pages2
    page := if s.page = some id then pages2.getLast? else s.page
    nextId := s.nextId }

def stepTab (s : Session) : TabEvent → Session
  | .openTab => onPageOpen s
  | .closeTab id => onPageClose s id

def runTabs (evs : List TabEvent) : Session :=
  evs.foldl stepTab sessionInit

/-- Session well-formedness: pages are listed in strictly increasing
open order, all below the fresh-id counter. -/
def SessionInv (s : Session) : Prop :=
  s.pages.Pairwise (· < ·) ∧ ∀ p ∈ s.pages, p < s.nextId

theorem sessionInv_init : SessionInv sessionInit :=
  ⟨List.Pairwise.nil, fun p hp => absurd hp (List.not_mem_nil p)⟩

theorem sessionInv_step (s : Session) (e : TabEvent) (h : SessionInv s) :
    SessionInv (stepTab s e) := by
  obtain ⟨hpw, hlt⟩ := h
  cases e with
  | openTab =>
    constructor
    · show (s.pages ++ [s.nextId]).Pairwise (· < ·)
      rw [List.pairwise_append]
      exact ⟨hpw, List.pairwise_singleton _ _,
        fun x hx y hy => by rw [List.mem_singleton.mp hy]; exact hlt x hx⟩
    · intro p hp
      rcases List.mem_append.mp hp with h | h
      · exact Nat.lt_succ_of_lt (hlt p h)
      · rw [List.mem_singleton.mp h]; exact Nat.lt_succ_self _
  | closeTab id =>
    constructor
    · exact List.Pairwise.sublist (List.filter_sublist _) hpw
    · intro p hp
      exact hlt p (List.mem_of_mem_filter hp)

theorem sessionInv_run (evs : List TabEvent) : SessionInv (runTabs evs) := by
  rw [runTabs]
  have : ∀ (l : List TabEvent) (s : Session), SessionInv s → SessionInv (l.foldl stepTab s) := by
    intro l
    induction l with
    | nil => intro s hs; exact hs
    | cons e es ih => intro s hs; exact ih _ (sessionInv_step s e hs)
  exact this evs sessionInit sessionInv_init

/-- In a strictly increasing list the last element is the maximum. -/
theorem getLast?_max (l : List Nat) (hp : l.Pairwise (· < ·)) (hne : l ≠ []) :
    ∃ c, l.getLast? = some c ∧ c ∈ l ∧ ∀ b ∈ l, b ≤ c := by
  induction l with
  | nil => exact absurd rfl hne
  | cons x xs ih =>
    cases xs with
    | nil =>
      exact ⟨x, rfl, List.mem_singleton_self x, fun b hb => by
        rw [List.mem_singleton.mp hb]⟩
    | cons y ys =>
      have hpw2 : (y :: ys).Pairwise (· < ·) := (List.pairwise_cons.mp hp).2
      obtain ⟨c, hlast, hmem, hmax⟩ := ih hpw2 (by simp)
      refine ⟨c, ?_, List.mem_cons_of_mem x hmem, ?_⟩
      · rw [List.getLast?_cons_cons]
        exact hlast
      · intro b hb
        rcases List.mem_cons.mp hb with h | h
        · subst h
          exact Nat.le_of_lt ((List.pairwise_cons.mp hp).1 c hmem)
        · exact hmax b h

/-- **C6.** The Session keeps the active-Tab invariant current: a tab
opened by the context becomes active at once, and closing the active
tab promotes the most recently opened remaining tab (the one with the
greatest open sequence number) or leaves no active tab when none
remain. -/
theorem session_active_tab (evs : List TabEvent) :
    (stepTab (runTabs evs) .openTab).page = some (runTabs evs).nextId ∧
      ∀ a, (runTabs evs).page = some a →
        ((stepTab (runTabs evs) (.closeTab a)).pages = [] →
            (stepTab (runTabs evs) (.closeTab a)).page = none) ∧
          ((stepTab (runTabs evs) (.closeTab a)).pages ≠ [] →
            ∃ c, (stepTab (runTabs evs) (.closeTab a)).page = some c ∧
              c ∈ (stepTab (runTabs evs) (.closeTab a)).pages ∧
              ∀ b ∈ (stepTab (runTabs evs) (.closeTab a)).pages, b ≤ c) := by
  refine ⟨rfl, ?_⟩
  intro a ha
  have hinv := sessionInv_run evs
  constructor
  · intro hemp
    show (if (runTabs evs).page = some a then
        ((runTabs evs).pages.filter (fun p => p ≠ a)).getLast? else (runTabs evs).page) = none
    rw [if_pos ha]
    have : (runTabs evs).pages.filter (fun p => p ≠ a) = [] := hemp
    rw [this]
    rfl
  · intro hne
    have hpw : ((runTabs evs).pages.filter (fun p => p ≠ a)).Pairwise (· < ·) :=
      List.Pairwise.sublist (List.filter_sublist _) hinv.1
    obtain ⟨c, hlast, hmem, hmax⟩ := getLast?_max _ hpw hne
    refine ⟨c, ?_, hmem, hmax⟩
    show (if (runTabs evs).page = some a then
        ((runTabs evs).pages.filter (fun p => p ≠ a)).getLast? else (runTabs evs).page) = some c
    rw [if_pos ha]
    exact hlast

theorem session_active_tab_witness :
    (runTabs [.openTab, .openTab]).page = some 1 ∧
      ((stepTab (runTabs [.openTab, .openTab]) (.closeTab 1)).pages = [] →
          (stepTab (runTabs [.openTab, .openTab]) (.closeTab 1)).page = none) ∧
        ((stepTab (runTabs [.openTab, .openTab]) (.closeTab 1)).pages ≠ [] →
          ∃ c, (stepTab (runTabs [.openTab, .openTab]) (.closeTab 1)).page = some c ∧
            c ∈ (stepTab (runTabs [.openTab, .openTab]) (.closeTab 1)).pages ∧
            ∀ b ∈ (stepTab (runTabs [.openTab, .openTab]) (.closeTab 1)).pages, b ≤ c) :=
  ⟨by decide, (session_active_tab [.openTab, .openTab]).2 1 (by decide)⟩

/-- Navigation events of one `goto` call: the strict network-idle
attempt, the loose DOM-parsed fallback attempt, and the fixed settle
delay after a successful fallback. -/
inductive NavEv
  | attemptStrict
  | attemptFallback
  | settle (ms : Nat)
  deriving DecidableEq, Repr

inductive GotoErr
  | browserNotInit
  | navFailed (msg : String)
  deriving DecidableEq, Repr

/-- The fixed settle delay after the fallback attempt, in milliseconds. -/
def settleDelayMs : Nat := 2000

/-- The navigation environment: whether the page exists, and the
outcome of each wait strategy for the requested URL. -/
structure NavEnv where
  pageInit : Bool
  strictResult : Except String Unit
  fallbackResult : Except String Unit
  deriving Repr

/-- `PlaywrightService.goto`: try `waitUntil: 'networkidle'`; on error
retry once with `waitUntil: 'domcontentloaded'` plus a 2000 ms settle
delay; an error of the retry propagates. -/
def gotoNav (env : NavEnv) : Except GotoErr Unit × List NavEv :=
  if !env.pageInit then (.error .browserNotInit, [])
  else
    match env.strictResult with
    | .ok _ => (.ok (), [.attemptStrict])
    | .error _ =>
      match env.fallbackResult with
      | .ok _ => (.ok (), [.attemptStrict, .attemptFallback, .settle settleDelayMs])
      | .error m => (.error (.navFailed m), [.attemptStrict, .attemptFallback])

/-- **C4.** `goto` always attempts the strict wait first; the fallback
is attempted exactly once, and only when the strict attempt fails;
navigation fails only when both attempts fail; a successful fallback
adds the fixed settle delay. -/
theorem goto_strict_then_fallback (env : NavEnv) (hp : env.pageInit = true) :
    (gotoNav env).2.head? = some .attemptStrict ∧
      ((gotoNav env).2.count .attemptFallback =
        match env.strictResult with
        | .ok _ => 0
        | .error _ => 1) ∧
      ((∃ m, (gotoNav env).1 = .error (.navFailed m)) ↔
        ((∃ m, env.strictResult = .error m) ∧ (∃ m, env.fallbackResult = .error m))) ∧
      (∀ m u, env.strictResult = .error m → env.fallbackResult = .ok u →
        (gotoNav env).1 = .ok () ∧ .settle settleDelayMs ∈ (gotoNav env).2) := by
  rcases hs : env.strictResult with u1 | m1 <;>
    rcases hf : env.fallbackResult with u2 | m2 <;>
      simp [gotoNav, hp, hs, hf, List.count_cons, List.count_nil]

theorem goto_strict_then_fallback_witness :
    (NavEnv.mk true (.error "timeout") (.ok ())).pageInit = true ∧
      ((gotoNav (NavEnv.mk true (.error "timeout") (.ok ()))).2.head? =
          some .attemptStrict ∧
        ((gotoNav (NavEnv.mk true (.error "timeout") (.ok ()))).2.count
            .attemptFallback =
          match (NavEnv.mk true (.error "timeout") (.ok ())).strictResult with
          | .ok _ => 0
          | .error _ => 1) ∧
        ((∃ m, (gotoNav (NavEnv.mk true (.error "timeout") (.ok ()))).1 =
            .error (.navFailed m)) ↔
          ((∃ m, (NavEnv.mk true (.error "timeout") (.ok ())).strictResult = .error m) ∧
            (∃ m, (NavEnv.mk true (.error "timeout") (.ok ())).fallbackResult =
              .error m))) ∧
        (∀ m u, (NavEnv.mk true (.error "timeout") (.ok ())).strictResult = .error m →
          (NavEnv.mk true (.error "timeout") (.ok ())).fallbackResult = .ok u →
          (gotoNav (NavEnv.mk true (.error "timeout") (.ok ()))).1 = .ok () ∧
            .settle settleDelayMs ∈
              (gotoNav (NavEnv.mk true (.error "timeout") (.ok ()))).2)) :=
  ⟨rfl, goto_strict_then_fallback (NavEnv.mk true (.error "timeout") (.ok ())) rfl⟩

/-- Events of one `typeBySelector` call. -/
inductive TypeEv
  | focusEl
  | waitMs (ms : Nat)
  | clearValue
  | typeChars (s : String)
  | pressEnter
  | jsSetValue (s : String)
  | jsDispatchEnter
  deriving DecidableEq, Repr

inductive TypeErr
  | browserNotInit
  | typeFailed (sel : String)
  deriving DecidableEq, Repr

/-- The typing environment: whether the page exists, whether the
selector resolves to a visible, editable element, and whether the
direct fill/type path succeeds (otherwise the JS fallback runs). -/
structure TypeEnv where
  pageInit : Bool
  found : Bool
  visible : Bool
  editable : Bool
  directOk : Bool
  deriving DecidableEq, Repr

/-- `typeBySelector` from the tabbed PlaywrightService: wait for the
selector, verify visible and editable, focus, clear, type, then press
Enter; on a direct-path error fall back to setting the value and
dispatching Enter key events via JavaScript.  Guard failures are
caught and re-thrown as a `Failed to type text...` error. -/
def typeBySelector (env : TypeEnv) (sel text : String) :
    Except TypeErr Unit × List TypeEv :=
  if !env.pageInit then (.error .browserNotInit, [])
  else if !env.found then (.error (.typeFailed sel), [])
  else if !env.visible then (.error (.typeFailed sel), [])
  else if !env.editable then (.error (.typeFailed sel), [])
  else if env.directOk then
    (.ok (), [.focusEl, .waitMs 200, .clearValue, .typeChars text, .waitMs 1000,
      .pressEnter, .waitMs 2000])
  else
    (.ok (), [.focusEl, .waitMs 200, .jsSetValue text, .jsDispatchEnter, .waitMs 2000])

/-- **C8 counterexample.** Typing is never submission-free: on the
direct path the engine always presses Enter after typing, and the JS
fallback always dispatches Enter key events — there is no configuration
input gating submission, contradicting the claim that an Enter
keystroke is sent only when semantically appropriate. -/
theorem type_always_enter_cex :
    (typeBySelector ⟨true, true, true, true, true⟩ "#q" "hello").1 = .ok () ∧
      .pressEnter ∈ (typeBySelector ⟨true, true, true, true, true⟩ "#q" "hello").2 ∧
      (typeBySelector ⟨true, true, true, true, false⟩ "#q" "hello").1 = .ok () ∧
      .jsDispatchEnter ∈
        (typeBySelector ⟨true, true, true, true, false⟩ "#q" "hello").2 := by
  refine ⟨rfl, by decide, rfl, by decide⟩

/-- **C8 amended.** For every Type action the engine verifies the
element is editable (failing without typing otherwise), and on success
clears the existing value, types the text and then *unconditionally*
submits with an Enter keystroke (direct path) or Enter key events (JS
fallback); submission is not configuration-gated at this layer. -/
theorem type_clears_types_then_enter (env : TypeEnv) (sel text : String) :
    (env.pageInit = true → env.found = true → env.visible = true →
        env.editable = false →
        (typeBySelector env sel text).1 = .error (.typeFailed sel) ∧
          (typeBySelector env sel text).2 = []) ∧
      (env.pageInit = true → env.found = true → env.visible = true →
        env.editable = true →
        (typeBySelector env sel text).1 = .ok () ∧
          (.pressEnter ∈ (typeBySelector env sel text).2 ∨
            .jsDispatchEnter ∈ (typeBySelector env sel text).2) ∧
          (env.directOk = true →
            (typeBySelector env sel text).2 =
              [.focusEl, .waitMs 200, .clearValue, .typeChars text, .waitMs 1000,
                .pressEnter, .waitMs 2000])) := by
  constructor
  · intro h1 h2 h3 h4
    rw [typeBySelector]
    simp [h1, h2, h3, h4]
  · intro h1 h2 h3 h4
    rcases h5 : env.directOk with _ | _ <;>
      simp [typeBySelector, h1, h2, h3, h4, h5]

theorem type_clears_types_then_enter_witness :
    ((TypeEnv.mk true true true true true).pageInit = true ∧
        (TypeEnv.mk true true true true true).found = true ∧
        (TypeEnv.mk true true true true true).visible = true ∧
        (TypeEnv.mk true true true true true).editable = true) ∧
      ((typeBySelector (TypeEnv.mk true true true true true) "#q" "hi").1 = .ok () ∧
        (.pressEnter ∈ (typeBySelector (TypeEnv.mk true true true true true) "#q" "hi").2 ∨
          .jsDispatchEnter ∈
            (typeBySelector (TypeEnv.mk true true true true true) "#q" "hi").2) ∧
        ((TypeEnv.mk true true true true true).directOk = true →
          (typeBySelector (TypeEnv.mk true true true true true) "#q" "hi").2 =
            [.focusEl, .waitMs 200, .clearValue, .typeChars "hi", .waitMs 1000,
              .pressEnter, .waitMs 2000])) :=
  ⟨⟨rfl, rfl, rfl, rfl⟩,
    (type_clears_types_then_enter (TypeEnv.mk true true true true true) "#q" "hi").2
      rfl rfl rfl rfl⟩

/-- The `data-stable-id` marker stamped on an element for one click
action's lifetime. -/
def stableIdKey : String := "data-stable-id"

/-- The DOMService instance state: the page plus the
`highlightOverlayEnabled` flag. -/
structure DSState where
  page : PageState
  highlightOverlayEnabled : Bool
  deriving DecidableEq, Repr

/-- `DOMService.cleanup`: only when the overlay flag is set, remove all
`.element-highlight` nodes and all `data-element-index` attributes and
clear the flag; otherwise do nothing. -/
def cleanupDS (s : DSState) : DSState :=
  if s.highlightOverlayEnabled then
    { page := { elems := s.page.elems.map cleanElem, overlays := [] }
      highlightOverlayEnabled := false }
  else s

/-- The stamping step of `clickElement`: set `data-stable-id` on the
element the base stable selector resolves to. -/
def stampStableId (p : PageState) (eid : Nat) (uid : String) : PageState :=
  { p with elems := p.elems.map (fun e =>
      if e.eid = eid then { e with attrs := setAttr e.attrs stableIdKey uid } else e) }

/-- An element carrying a mid-click `data-stable-id` stamp and a
snapshot marker. -/
def wStamped : RawElem :=
  { wRaw 0 with
    attrs := [("href", "/r0"), ("data-stable-id", "stable-17-1"),
      ("data-element-index", "1")] }

/-- **C9 counterexample.** Cleanup does not remove every transient
artifact: the time-based `data-stable-id` marker stamped during a click
survives cleanup, and when the overlay flag is unset (as after
`getPageState(false)`-only captures) cleanup removes nothing at all. -/
theorem cleanup_leaves_stable_id_cex :
    attrLookup (((cleanupDS ⟨⟨[wStamped], [1]⟩, true⟩).page.elems.get
        ⟨0, by decide⟩).attrs) stableIdKey = some "stable-17-1" ∧
      cleanupDS ⟨⟨[wStamped], [1]⟩, false⟩ = ⟨⟨[wStamped], [1]⟩, false⟩ := by
  refine ⟨by decide, by decide⟩

theorem attrLookup_removeAttr_other (a : Attrs) (k k2 : String) (h : k2 ≠ k) :
    attrLookup (removeAttr a k) k2 = attrLookup a k2 := by
  induction a with
  | nil => rfl
  | cons kv a ih =>
    by_cases hk : kv.1 = k
    · have h1 : removeAttr (kv :: a) k = removeAttr a k := by
        rw [removeAttr, List.filter_cons, if_neg (by simp [hk])]
        rfl
      have h2 : attrLookup (kv :: a) k2 = attrLookup a k2 := by
        simp only [attrLookup]
        rw [List.find?_cons_of_neg _ (by simp [hk]; exact Ne.symm h)]
      rw [h1, h2]
      exact ih
    · have h1 : removeAttr (kv :: a) k = kv :: removeAttr a k := by
        rw [removeAttr, List.filter_cons, if_pos (by simp [hk])]
        rfl
      rw [h1]
      by_cases hq : kv.1 = k2
      · simp only [attrLookup]
        rw [List.find?_cons_of_pos _ (by simp [hq]),
          List.find?_cons_of_pos _ (by simp [hq])]
      · simp only [attrLookup]
        rw [List.find?_cons_of_neg _ (by simp [hq]),
          List.find?_cons_of_neg _ (by simp [hq])]
        exact ih

/-- **C9 amended.** When the overlay flag is set, cleanup removes all
overlay nodes and all `data-element-index` snapshot markers and clears
the flag — but any `data-stable-id` marker stamped during a click
action remains on its element untouched. -/
theorem cleanup_overlays_markers (s : DSState)
    (h : s.highlightOverlayEnabled = true) :
    (cleanupDS s).page.overlays = [] ∧
      (∀ e ∈ (cleanupDS s).page.elems, attrLookup e.attrs markerKey = none) ∧
      (cleanupDS s).page.elems.map (fun e => attrLookup e.attrs stableIdKey) =
        s.page.elems.map (fun e => attrLookup e.attrs stableIdKey) ∧
      (cleanupDS s).highlightOverlayEnabled = false := by
  rw [cleanupDS, if_pos h]
  refine ⟨rfl, ?_, ?_, rfl⟩
  · intro e he
    obtain ⟨e0, _, he0⟩ := List.mem_map.mp he
    rw [← he0]
    exact attrLookup_removeAttr_self e0.attrs markerKey
  · show (s.page.elems.map cleanElem).map (fun e => attrLookup e.attrs stableIdKey) =
      s.page.elems.map (fun e => attrLookup e.attrs stableIdKey)
    rw [List.map_map]
    apply List.map_congr_left
    intro e _
    show attrLookup (removeAttr e.attrs markerKey) stableIdKey =
      attrLookup e.attrs stableIdKey
    exact attrLookup_removeAttr_other e.attrs markerKey stableIdKey (by decide)

theorem cleanup_overlays_markers_witness :
    (DSState.mk ⟨[wStamped], [1]⟩ true).highlightOverlayEnabled = true ∧
      ((cleanupDS (DSState.mk ⟨[wStamped], [1]⟩ true)).page.overlays = [] ∧
        (∀ e ∈ (cleanupDS (DSState.mk ⟨[wStamped], [1]⟩ true)).page.elems,
          attrLookup e.attrs markerKey = none) ∧
        (cleanupDS (DSState.mk ⟨[wStamped], [1]⟩ true)).page.elems.map
            (fun e => attrLookup e.attrs stableIdKey) =
          (DSState.mk ⟨[wStamped], [1]⟩ true).page.elems.map
            (fun e => attrLookup e.attrs stableIdKey) ∧
        (cleanupDS (DSState.mk ⟨[wStamped], [1]⟩ true)).highlightOverlayEnabled = false) :=
  ⟨rfl, cleanup_overlays_markers (DSState.mk ⟨[wStamped], [1]⟩ true) rfl⟩

/-- Errors thrown inside the Action Executor's try block, one
constructor per throw site (the message strings of the source). -/
inductive ExecErr
  | pageNotInit
  | elementNotValid (i : Nat)
  | elementNotFound (i : Nat)
  | external (msg : String)
  deriving DecidableEq, Repr

/-- The spec's `ElementNotFoundError` bucket: the executor errors
raised when the referenced index no longer resolves to a live, visible
element. -/
def isElementNotFoundKind : ExecErr → Bool
  | .elementNotValid _ => true
  | .elementNotFound _ => true
  | _ => false

/-- The slice of DOMState the executor reads for its result. -/
structure PageStateView where
  title : String
  scrollX : Int
  scrollY : Int
  deriving DecidableEq, Repr

structure ResultPageState where
  title : String
  elements : String
  scrollX : Int
  scrollY : Int
  deriving DecidableEq, Repr

/-- The ActionResult returned by the executor. -/
structure ActionResultM where
  success : Bool
  error : Option ExecErr
  currentUrl : String
  screenshot : String
  pageState : Option ResultPageState
  deriving DecidableEq, Repr

/-- The executor's Action variants (index-referenced). -/
inductive Action
  | goto (url : String)
  | click (index : Nat)
  | typeAt (index : Nat) (text : String)
  | scroll (index : Nat)
  | complete
  deriving DecidableEq, Repr

/-- The service operations the executor awaits, each fallible. -/
structure ExecEnv where
  pageAvailable : Bool
  goto : String → Except ExecErr Unit
  validateElement : Nat → Except ExecErr Bool
  scrollToElement : Nat → Except ExecErr Unit
  getElementByIndex : Nat → Except ExecErr (Option ElementInfo)
  clickBySelector : String → Except ExecErr Unit
  typeBySel : String → String → Except ExecErr Unit
  waitForLoadState : Except ExecErr Unit
  getCurrentUrl : Except ExecErr String
  takeScreenshot : Except ExecErr String
  getPageState : Except ExecErr PageStateView
  getFormattedElements : Except ExecErr String

/-- The selector the executor passes to click/type. -/
def elementIndexSelector (i : Nat) : String :=
  "[data-element-index=\"" ++ toString i ++ "\"]"

/-- `ensureDOMService`: constructs the DOMService on demand, throwing
when no browser page is initialized. -/
def ensureDOMService (env : ExecEnv) (dsInit : Bool) : Except ExecErr Unit :=
  if dsInit then Except.ok ()
  else if env.pageAvailable then Except.ok () else Except.error ExecErr.pageNotInit

/-- The switch over the action type inside the try block. -/
def dispatchAction (env : ExecEnv) : Action → Except ExecErr Unit
  | .goto url => env.goto url
  | .click i => do
      let v ← env.validateElement i
      if !v then
        throw (ExecErr.elementNotValid i)
      else do
        env.scrollToElement i
        let el ← env.getElementByIndex i
        match el with
        | none => throw (ExecErr.elementNotFound i)
        | some _ => env.clickBySelector (elementIndexSelector i)
  | .typeAt i text => do
      let v ← env.validateElement i
      if !v then
        throw (ExecErr.elementNotValid i)
      else do
        env.scrollToElement i
        env.typeBySel (elementIndexSelector i) text
  | .scroll i => env.scrollToElement i
  | .complete => Except.ok ()

/-- The try block of `ActionExecutor.execute`: ensure the DOMService,
dispatch the action, then gather the fresh state for a success result. -/
def executeBody (env : ExecEnv) (dsInit : Bool) (a : Action) :
    Except ExecErr ActionResultM := do
  ensureDOMService env dsInit
  dispatchAction env a
  env.waitForLoadState
  let u ← env.getCurrentUrl
  let sc ← env.takeScreenshot
  let st ← env.getPageState
  let fe ← env.getFormattedElements
  pure { success := true, error := none, currentUrl := u, screenshot := sc,
         pageState := some ⟨st.title, fe, st.scrollX, st.scrollY⟩ }

/-- The catch block's best-effort state fetch: current URL, screenshot
and page state are kept as far as the guarded fetch gets before its own
failure, and the page state is only read when the DOMService exists. -/
def failureState (env : ExecEnv) (dsAvail : Bool) :
    String × String × Option ResultPageState :=
  match env.getCurrentUrl with
  | .error _ => ("", "", none)
  | .ok u =>
    match env.takeScreenshot with
    | .error _ => (u, "", none)
    | .ok sc =>
      if dsAvail then
        match env.getPageState with
        | .error _ => (u, sc, none)
        | .ok st =>
          match env.getFormattedElements with
          | .error _ => (u, sc, none)
          | .ok fe => (u, sc, some ⟨st.title, fe, st.scrollX, st.scrollY⟩)
      else (u, sc, none)

/-- `ActionExecutor.execute`: the try body with every thrown error
caught and converted into a failure ActionResult carrying best-effort
current state.  The `Except` result type witnesses that no throw
escapes the boundary. -/
def execute (env : ExecEnv) (dsInit : Bool) (a : Action) :
    Except ExecErr ActionResultM :=
  match executeBody env dsInit a with
  | .ok r => Except.ok r
  | .error e =>
    let dsAvail := dsInit || env.pageAvailable
    let s := failureState env dsAvail
    Except.ok { success := false, error := some e, currentUrl := s.1,
                screenshot := s.2.1, pageState := s.2.2 }

theorem failureState_url_shot (env : ExecEnv) (d : Bool) (u sc : String)
    (hu : env.getCurrentUrl = Except.ok u)
    (hs : env.takeScreenshot = Except.ok sc) :
    ∃ ps, failureState env d = (u, sc, ps) := by
  rw [failureState, hu, hs]
  cases d with
  | false => exact ⟨none, rfl⟩
  | true =>
    rcases env.getPageState with e | st
    · exact ⟨none, rfl⟩
    · rcases env.getFormattedElements with e | fe
      · exact ⟨none, rfl⟩
      · exact ⟨some ⟨st.title, fe, st.scrollX, st.scrollY⟩, rfl⟩

/-- **C3.** The executor never throws past its boundary: every action
yields an ActionResult; every error of the try body becomes a
`success := false` result carrying the error; and a Click whose index
no longer validates returns `success := false` with the
element-not-found error kind while `currentUrl` and `screenshot` are
still populated from the fresh capture. -/
theorem executor_never_throws (env : ExecEnv) (dsInit : Bool) (i : Nat)
    (u sc : String)
    (hp : env.pageAvailable = true)
    (hv : env.validateElement i = Except.ok false)
    (hu : env.getCurrentUrl = Except.ok u)
    (hs : env.takeScreenshot = Except.ok sc) :
    (∀ a, ∃ r, execute env dsInit a = Except.ok r) ∧
      (∀ a e, executeBody env dsInit a = Except.error e →
        ∃ r, execute env dsInit a = Except.ok r ∧ r.success = false ∧
          r.error = some e) ∧
      (∃ r, execute env dsInit (.click i) = Except.ok r ∧ r.success = false ∧
        r.error = some (ExecErr.elementNotValid i) ∧
        isElementNotFoundKind (ExecErr.elementNotValid i) = true ∧
        r.currentUrl = u ∧ r.screenshot = sc) := by
  have hgen : ∀ a e, executeBody env dsInit a = Except.error e →
      ∃ r, execute env dsInit a = Except.ok r ∧ r.success = false ∧
        r.error = some e ∧ r.currentUrl = u ∧ r.screenshot = sc := by
    intro a e he
    obtain ⟨ps, hfs⟩ := failureState_url_shot env (dsInit || env.pageAvailable) u sc hu hs
    refine ⟨{ success := false, error := some e,
              currentUrl := (failureState env (dsInit || env.pageAvailable)).1,
              screenshot := (failureState env (dsInit || env.pageAvailable)).2.1,
              pageState := (failureState env (dsInit || env.pageAvailable)).2.2 },
      ?_, rfl, rfl, ?_, ?_⟩
    · rw [execute, he]
    · show (failureState env (dsInit || env.pageAvailable)).1 = u
      rw [hfs]
    · show (failureState env (dsInit || env.pageAvailable)).2.1 = sc
      rw [hfs]
  refine ⟨?_, ?_, ?_⟩
  · intro a
    rcases hb : executeBody env dsInit a with e | r
    · obtain ⟨r, hr, _⟩ := hgen a e hb
      exact ⟨r, hr⟩
    · exact ⟨r, by rw [execute, hb]⟩
  · intro a e he
    obtain ⟨r, hr, h1, h2, _⟩ := hgen a e he
    exact ⟨r, hr, h1, h2⟩
  · have hens : ensureDOMService env dsInit = Except.ok () := by
      rw [ensureDOMService]
      cases dsInit with
      | false => rw [if_neg (by simp), if_pos hp]
      | true => rw [if_pos rfl]
    have hdisp : dispatchAction env (.click i) =
        Except.error (ExecErr.elementNotValid i) := by
      simp only [dispatchAction]
      rw [hv]
      rfl
    have hbody : executeBody env dsInit (.click i) =
        Except.error (ExecErr.elementNotValid i) := by
      simp only [executeBody]
      rw [hens, hdisp]
      rfl
    obtain ⟨r, hr, h1, h2, h3, h4⟩ := hgen (.click i) (ExecErr.elementNotValid i) hbody
    exact ⟨r, hr, h1, h2, rfl, h3, h4⟩

/-- A concrete environment where index 3 no longer validates but the
page is alive. -/
def wExecEnv : ExecEnv :=
  { pageAvailable := true
    goto := fun _ => Except.ok ()
    validateElement := fun _ => Except.ok false
    scrollToElement := fun _ => Except.ok ()
    getElementByIndex := fun _ => Except.ok none
    clickBySelector := fun _ => Except.ok ()
    typeBySel := fun _ _ => Except.ok ()
    waitForLoadState := Except.ok ()
    getCurrentUrl := Except.ok "https://example.com/results"
    takeScreenshot := Except.ok "jpegbase64"
    getPageState := Except.ok ⟨"Results", 0, 0⟩
    getFormattedElements := Except.ok "[1] <a href=\"/next\">Next</a>" }

theorem executor_never_throws_witness :
    (wExecEnv.pageAvailable = true ∧
        wExecEnv.validateElement 3 = Except.ok false ∧
        wExecEnv.getCurrentUrl = Except.ok "https://example.com/results" ∧
        wExecEnv.takeScreenshot = Except.ok "jpegbase64") ∧
      (∃ r, execute wExecEnv false (.click 3) = Except.ok r ∧ r.success = false ∧
        r.error = some (ExecErr.elementNotValid 3) ∧
        isElementNotFoundKind (ExecErr.elementNotValid 3) = true ∧
        r.currentUrl = "https://example.com/results" ∧
        r.screenshot = "jpegbase64") :=
  ⟨⟨rfl, rfl, rfl, rfl⟩,
    (executor_never_throws wExecEnv false 3 "https://example.com/results" "jpegbase64"
      rfl rfl rfl rfl).2.2⟩

end WebAgent
